import Mathlib

/-!
Shallow embedding of `pkg/repos/runtimes/golang/golang.go` (package `golang`
of gptscript).  Pure string manipulation is translated directly, using
char-list workers so that every definition evaluates inside the kernel;
filesystem and network effects are modelled by explicit oracles describing
the outcome of each external call, and each embedded function additionally
reports which external calls it performed, so that claims such as
"no network call" or "zero additional downloads" are statable.
-/

namespace Golang

/-! ### String primitives (Go `strings` package, char-list based) -/

/-- Worker for Go's `strings.Split` with a non-empty separator: scan left to
right, splitting at each non-overlapping occurrence of `sep`.  The fuel
argument (instantiated with `length + 1`) only makes the recursion
structural; it never runs out for a non-empty separator. -/
def splitChAux (sep : List Char) : Nat → List Char → List Char → List (List Char)
  | 0, _, acc => [acc.reverse]
  | _ + 1, [], acc => [acc.reverse]
  | n + 1, c :: cs, acc =>
    if sep.isPrefixOf (c :: cs) then
      acc.reverse :: splitChAux sep n (List.drop sep.length (c :: cs)) []
    else
      splitChAux sep n cs (c :: acc)

/-- Go's `strings.Split s sep` for the non-empty separators used in the
source (`"  "`, `"/"`, `"\n"`). -/
def goSplit (s sep : String) : List String :=
  (splitChAux sep.data (s.data.length + 1) s.data []).map String.mk

/-- Split at every character satisfying `p` (empty pieces kept). -/
def splitPredAux (p : Char → Bool) : List Char → List Char → List (List Char)
  | [], acc => [acc.reverse]
  | c :: cs, acc =>
    if p c then acc.reverse :: splitPredAux p cs []
    else splitPredAux p cs (c :: acc)

/-- Go's `strings.Fields`: split around runs of whitespace, no empty
fields. -/
def goFields (s : String) : List String :=
  ((splitPredAux Char.isWhitespace s.data []).filter (fun f => f ≠ [])).map String.mk

/-- Go's `strings.HasPrefix s pre`. -/
def goHasPre (s pre : String) : Bool :=
  pre.data.isPrefixOf s.data

/-- Go's `strings.HasSuffix s suf`. -/
def goHasSuf (s suf : String) : Bool :=
  suf.data.isSuffixOf s.data

/-- Go's `strings.TrimSuffix s suf`: drop `suf` from the end when present. -/
def goTrimSuf (s suf : String) : String :=
  if goHasSuf s suf then String.mk (s.data.take (s.data.length - suf.data.length)) else s

/-- Go's `strings.TrimPrefix s pre`: drop `pre` from the start when present. -/
def goTrimPre (s pre : String) : String :=
  if goHasPre s pre then String.mk (s.data.drop pre.data.length) else s

/-- Drop leading whitespace characters. -/
def trimLeftCh : List Char → List Char
  | [] => []
  | c :: cs => if c.isWhitespace then trimLeftCh cs else c :: cs

/-- Go's `strings.TrimSpace`: trim whitespace from both ends. -/
def goTrim (s : String) : String :=
  String.mk ((trimLeftCh (trimLeftCh s.data).reverse).reverse)

/-- Go's `bufio.Scanner` with the default `ScanLines` split: the input broken
at newlines, a trailing `\r` stripped from each line, and no empty final
token produced for input ending in a newline (nor any token for empty
input). -/
def scanLines (s : String) : List String :=
  if s.data = [] then []
  else
    let ls := goSplit s "\n"
    let ls := if goHasSuf s "\n" then ls.dropLast else ls
    ls.map (fun l => if goHasSuf l "\r" then String.mk l.data.dropLast else l)

/-- Unix `filepath.Join` of two components. -/
def goJoin (a b : String) : String := a ++ "/" ++ b

/-! ### Embedded release index: `getReleaseAndDigest` -/

/-- The constant `downloadURL = "https://go.dev/dl/"`. -/
def downloadURL : String := "https://go.dev/dl/"

/-- Method `(r *Runtime) ID()`: `"go" + r.Version`. -/
def runtimeID (version : String) : String := "go" ++ version

/-- Outcome of `getReleaseAndDigest`, totalized: `found url digest` for the
`return downloadURL + file, digest, nil` branch, `failure msg` for the final
`fmt.Errorf` branch, and `panicIdx` for the execution in which `line[1]` is
accessed out of bounds (a manifest line with no `"  "` separator), which in
Go is a runtime panic. -/
inductive GRDRes where
  | found (url digest : String)
  | failure (msg : String)
  | panicIdx
  deriving DecidableEq, Repr

/-- Returns `true` on the `found` constructor. -/
def GRDRes.isFound : GRDRes → Bool
  | .found _ _ => true
  | _ => false

/-- Loop body of `getReleaseAndDigest`: scan manifest lines for the first
whose filename (index 1 after `strings.Split(line, "  ")`, trimmed) starts
with `key`; the digest is index 0, trimmed.  The source indexes `line[1]`
with no length check, so a line whose split has fewer than two parts is the
out-of-bounds (`panicIdx`) case. -/
def findRelease (key : String) : List String → GRDRes
  | [] => .failure ""
  | l :: ls =>
    match (goSplit l "  ").get? 1, (goSplit l "  ").get? 0 with
    | some f, some d =>
      if goHasPre (goTrim f) key then .found (downloadURL ++ goTrim f) (goTrim d)
      else findRelease key ls
    | _, _ => .panicIdx

/-- Method `(r *Runtime) getReleaseAndDigest()`: the embedded manifest
`releasesData` is passed explicitly as `manifest`; `runtime.GOOS` and
`runtime.GOARCH` are the parameters `os` and `arch`. -/
def getReleaseAndDigest (version os arch manifest : String) : GRDRes :=
  let key := runtimeID version ++ "." ++ os ++ "-" ++ arch
  match findRelease key (scanLines manifest) with
  | .failure _ =>
      .failure ("failed to find " ++ runtimeID version ++ " release for os="
        ++ os ++ " arch=" ++ arch)
  | r => r

/-! ### Release resolution: `getLatestRelease` -/

/-- The `tool.Source.Repo` reference: repository root URL and target revision. -/
structure RepoRef where
  root : String
  revision : String
  deriving DecidableEq, Repr

/-- The slice of `types.Tool` used by this package: `Source.IsGit()`
(an external predicate of the `types` package, kept as a boolean field) and
`Source.Repo`. -/
structure ToolSource where
  isGit : Bool
  repo : Option RepoRef
  deriving DecidableEq, Repr

/-- The `tag` JSON shape: `Name` and `Commit.Sha`. -/
structure Tag where
  name : String
  sha : String
  deriving DecidableEq, Repr

/-- The `release` struct. -/
structure Release where
  account : String
  repo : String
  label : String
  deriving DecidableEq, Repr

/-- Outcomes of the two network calls `getLatestRelease` can make:
`tags = none` covers a transport error, a non-200 status, or a JSON decode
failure on the tag-listing request; `latest = some loc` is the `Location`
header of the latest-release redirect (`""` when the header is absent),
`latest = none` a transport error or non-302 status there. -/
structure NetOracle where
  tags : Option (List Tag)
  latest : Option String
  deriving Repr

/-- Result of `getLatestRelease` plus which endpoints were requested. -/
structure GLROut where
  rel : Option Release
  tagsCalled : Bool
  latestCalled : Bool
  deriving DecidableEq, Repr

/-- Function `getLatestRelease(tool)`: guard the URL shape, then scan the tag list
for a commit equal to the requested revision, then fall back to the
latest-release redirect.  `(nil, false)` is `rel = none`. -/
def getLatestRelease (tool : ToolSource) (o : NetOracle) : GLROut :=
  match tool.repo with
  | none => ⟨none, false, false⟩
  | some rr =>
    if ¬ goHasPre rr.root "https://github.com/" then ⟨none, false, false⟩
    else
      let parts := goSplit (goTrimPre (goTrimSuf rr.root ".git") "https://") "/"
      if parts.length ≠ 3 then ⟨none, false, false⟩
      else
        let account := parts.getD 1 ""
        let repo := parts.getD 2 ""
        match o.tags with
        | none => ⟨none, true, false⟩
        | some tags =>
          match tags.find? (fun t => t.sha == rr.revision) with
          | some t => ⟨some ⟨account, repo, t.name⟩, true, false⟩
          | none =>
            match o.latest with
            | none => ⟨none, true, true⟩
            | some loc =>
              if loc = "" then ⟨none, true, true⟩
              else ⟨some ⟨account, repo, (goSplit loc "/").getLastD ""⟩, true, true⟩

/-! ### Release-derived names and URLs -/

/-- Method `(r release) srcBinName()`: `r.repo + "-" + GOOS + "-" + GOARCH` plus
`".exe"` on windows. -/
def srcBinName (os arch : String) (r : Release) : String :=
  r.repo ++ "-" ++ os ++ "-" ++ arch ++ (if os = "windows" then ".exe" else "")

/-- Method `(r release) targetBinName()`: `"gptscript-go-tool"` plus `".exe"` on
windows. -/
def targetBinName (os : String) : String :=
  "gptscript-go-tool" ++ (if os = "windows" then ".exe" else "")

/-- Method `(r release) checksumTxt()`. -/
def checksumTxt (r : Release) : String :=
  "https://github.com/" ++ r.account ++ "/" ++ r.repo ++ "/releases/download/"
    ++ r.label ++ "/checksums.txt"

/-- Method `(r release) binURL()`. -/
def binURL (os arch : String) (r : Release) : String :=
  "https://github.com/" ++ r.account ++ "/" ++ r.repo ++ "/releases/download/"
    ++ r.label ++ "/" ++ srcBinName os arch r

/-! ### Checksum fetcher: `getChecksum` -/

/-- Scanner loop of `getChecksum`: skip lines unless they have exactly two
whitespace-separated fields with the second equal to `bin`; return the first
field of the first qualifying line. -/
def scanChecksum (bin : String) : List String → String
  | [] => ""
  | l :: ls =>
    if (goFields l).length ≠ 2 ∨ (goFields l).getD 1 "" ≠ bin then scanChecksum bin ls
    else (goFields l).getD 0 ""

/-- Function `getChecksum(ctx, rel)`: `resp = none` models `get` failing (transport
error or non-200 status), in which case the error is ignored and `""`
returned; otherwise the body is scanned line by line. -/
def getChecksum (os arch : String) (rel : Release) (resp : Option String) : String :=
  match resp with
  | none => ""
  | some body => scanChecksum (srcBinName os arch rel) (scanLines body)

/-- The checksum-fetcher contract as the spec words it: the first field of
the first manifest line that has exactly two whitespace-separated fields and
whose second field equals the platform-specific source binary name; empty
when no line qualifies or the fetch failed. -/
def getChecksumSpec (os arch : String) (rel : Release) (resp : Option String) : String :=
  match resp with
  | none => ""
  | some body =>
    match (scanLines body).find?
        (fun l => decide ((goFields l).length = 2 ∧ (goFields l).getD 1 "" = srcBinName os arch rel)) with
    | some l => (goFields l).getD 0 ""
    | none => ""

/-! ### Verified downloader: `downloadBin` -/

/-- The distinct errors `downloadBin` can return. -/
inductive DlErr where
  | transport
  | badStatus (code : Nat)
  | mkdirFail
  | createFail
  | copyFail
  | checksumMismatch (got expected : String)
  | chmodFail
  deriving DecidableEq, Repr

/-- Outcomes of the external calls made by `downloadBin`: `resp` is the HTTP
response (`none` a transport error, otherwise status code and body bytes),
and one flag per filesystem call. -/
structure DlOracle where
  resp : Option (Nat × List Nat)
  mkdirOk : Bool
  createOk : Bool
  copyOk : Bool
  closeOk : Bool
  chmodOk : Bool
  deriving DecidableEq, Repr

/-- Result of `downloadBin` plus whether the digest comparison was reached
and whether `os.Chmod` was invoked. -/
structure DlOut where
  result : Option DlErr
  digestCompared : Bool
  chmodCalled : Bool
  deriving DecidableEq, Repr

/-- Function `downloadBin(ctx, checksum, src, url, bin)`: `digestHex body` stands for
`hex.EncodeToString(sha256(body))`, the lowercase-hex digest of the bytes
written to the destination file.  Note the translation of the source's
`if err := targetFile.Close(); err != nil { return nil }`: a failing close
returns success without comparing the digest or calling chmod. -/
def downloadBin (digestHex : List Nat → String) (checksum : String) (o : DlOracle) : DlOut :=
  match o.resp with
  | none => ⟨some .transport, false, false⟩
  | some (status, body) =>
    if status ≠ 200 then ⟨some (.badStatus status), false, false⟩
    else if ¬ o.mkdirOk then ⟨some .mkdirFail, false, false⟩
    else if ¬ o.createOk then ⟨some .createFail, false, false⟩
    else if ¬ o.copyOk then ⟨some .copyFail, false, false⟩
    else if ¬ o.closeOk then ⟨none, false, false⟩
    else
      let got := digestHex body
      if got ≠ checksum then ⟨some (.checksumMismatch got checksum), true, false⟩
      else if ¬ o.chmodOk then ⟨some .chmodFail, true, true⟩
      else ⟨none, true, true⟩

/-! ### Prebuilt-binary fetch: `Binary` -/

/-- Result triple of `(r *Runtime) Binary`. -/
structure BinOut where
  found : Bool
  env : Option (List String)
  err : Option String
  deriving DecidableEq, Repr

/-- Method `(r *Runtime) Binary(ctx, tool, _, toolSource, env)`: every failure of
the optimization path returns `(false, nil, nil)`. -/
def Binary (tool : ToolSource) (os arch : String) (no : NetOracle)
    (manifest : Option String) (digestHex : List Nat → String)
    (dlo : DlOracle) (env : List String) : BinOut :=
  if ¬ tool.isGit then ⟨false, none, none⟩
  else
    match (getLatestRelease tool no).rel with
    | none => ⟨false, none, none⟩
    | some rel =>
      if getChecksum os arch rel manifest = "" then ⟨false, none, none⟩
      else
        match (downloadBin digestHex (getChecksum os arch rel manifest) dlo).result with
        | some _ => ⟨false, none, none⟩
        | none => ⟨true, some env, none⟩

/-! ### Content-addressed cache: `getRuntime` -/

/-- Outcomes of the external calls made by `getRuntime` after the release is
resolved: `probeErr` is `os.Stat` of a non-existent final path failing with
an error other than `fs.ErrNotExist`; the remaining flags are `os.MkdirAll`
on the staging directory, `download.Extract`, and `os.Rename`. -/
structure RunOracle where
  probeErr : Bool
  mkdirOk : Bool
  extractOk : Bool
  renameOk : Bool
  deriving DecidableEq, Repr

/-- Result of `getRuntime`: the returned path, a surfaced error, or a panic
propagated from `getReleaseAndDigest`. -/
inductive RunRes where
  | ok (path : String)
  | err (msg : String)
  | panicked
  deriving DecidableEq, Repr

/-- `true` on the `ok` constructor. -/
def RunRes.isOk : RunRes → Bool
  | .ok _ => true
  | _ => false

/-- Observable outcome of one `getRuntime` execution: its result, whether a
directory exists at the final fingerprinted path afterwards, whether the
`<fingerprint>.download` staging directory exists afterwards, and how many
times `download.Extract` was invoked. -/
structure RunOut where
  result : RunRes
  finalExists : Bool
  tmpExists : Bool
  extracts : Nat
  deriving DecidableEq, Repr

/-- Method `(r *Runtime) binDir(rel)`: `filepath.Join(rel, "go", "bin")`. -/
def binDir (rel : String) : String := goJoin (goJoin rel "go") "bin"

/-- Method `(r *Runtime) getRuntime(ctx, cwd)`.  Here `hashID` stands for the external
`hash.ID`; `finalExists`/`tmpExists` describe the filesystem before the
call (the stat probe succeeds exactly when `finalExists`).  The
`defer os.RemoveAll(tmp)` is registered before `os.MkdirAll(tmp, ...)`, so
on every exit path of the provisioning branch the staging directory is gone
(`tmpExists = false`); `os.Rename` is the sole step that makes the final
path exist. -/
def getRuntime (hashID : String → String → String)
    (version os arch manifest cwd : String) (o : RunOracle)
    (finalExists tmpExists : Bool) : RunOut :=
  match getReleaseAndDigest version os arch manifest with
  | .panicIdx => ⟨.panicked, finalExists, tmpExists, 0⟩
  | .failure msg => ⟨.err msg, finalExists, tmpExists, 0⟩
  | .found url sha =>
    let target := goJoin (goJoin cwd "golang") (hashID url sha)
    if finalExists then ⟨.ok (binDir target), finalExists, tmpExists, 0⟩
    else if o.probeErr then ⟨.err "stat error", finalExists, tmpExists, 0⟩
    else if ¬ o.mkdirOk then ⟨.err "mkdir error", false, false, 0⟩
    else if ¬ o.extractOk then ⟨.err "extract error", false, false, 1⟩
    else if ¬ o.renameOk then ⟨.err "rename error", false, false, 1⟩
    else ⟨.ok (binDir target), true, false, 1⟩

/-! ### Theorems -/

/-- C3 (counterexample): with the manifest entry exactly as the claim
writes it — `"deadbeef  1.22.1.linux-amd64.tar.gz"` — the lookup key is
`go1.22.1.linux-amd64` (the toolchain ID `ID() = "go" + version` starts the
key), the filename `1.22.1.linux-amd64.tar.gz` does not start with it, and
`getReleaseAndDigest` returns its not-found error instead of the claimed
URL and digest. -/
theorem getReleaseAndDigest_claim_filename_refuted :
    getReleaseAndDigest "1.22.1" "linux" "amd64"
        "deadbeef  1.22.1.linux-amd64.tar.gz"
      = .failure "failed to find go1.22.1 release for os=linux arch=amd64"
    ∧ getReleaseAndDigest "1.22.1" "linux" "amd64"
        "deadbeef  1.22.1.linux-amd64.tar.gz"
      ≠ .found "https://go.dev/dl/1.22.1.linux-amd64.tar.gz" "deadbeef" := by
  decide

/-- C3 (amended): for toolchain version `1.22.1` on linux/amd64 with the
manifest entry `"deadbeef  go1.22.1.linux-amd64.tar.gz"` (the filename
carries the toolchain ID `go1.22.1`), `getReleaseAndDigest` resolves the
download URL `https://go.dev/dl/go1.22.1.linux-amd64.tar.gz` and the
expected digest `deadbeef`, the line being matched by filename prefix
against the computed key `go1.22.1.linux-amd64`. -/
theorem getReleaseAndDigest_scenario :
    getReleaseAndDigest "1.22.1" "linux" "amd64"
        "deadbeef  go1.22.1.linux-amd64.tar.gz"
      = .found "https://go.dev/dl/go1.22.1.linux-amd64.tar.gz" "deadbeef" := by
  decide

/-- C2 (code bug, evaluated at the failing input): an execution of
`downloadBin` in which the HTTP fetch, directory creation, file creation and
copy all succeed, the digest of the written bytes (`"aa"`) differs from the
expected checksum (`"bb"`), and closing the destination file fails, returns
success — no checksum-mismatch error is produced, the digest is never
compared, and the file is never marked executable. -/
theorem downloadBin_mismatch_reported_ok :
    (fun _ : List Nat => "aa") [] ≠ "bb"
    ∧ downloadBin (fun _ : List Nat => "aa") "bb"
        ⟨some (200, []), true, true, true, false, true⟩
      = ⟨none, false, false⟩ := by
  decide

/-- C10: whenever the HTTP fetch returns status 200, `os.MkdirAll`,
`os.Create` and `io.Copy` succeed, and closing the destination file fails,
`downloadBin` returns success immediately, with the digest comparison
skipped and `os.Chmod` never invoked. -/
theorem downloadBin_close_failure_skips_checks
    (digestHex : List Nat → String) (checksum : String) (o : DlOracle)
    (body : List Nat)
    (hresp : o.resp = some (200, body))
    (hmk : o.mkdirOk = true) (hcr : o.createOk = true)
    (hcp : o.copyOk = true) (hcl : o.closeOk = false) :
    downloadBin digestHex checksum o = ⟨none, false, false⟩ := by
  simp [downloadBin, hresp, hmk, hcr, hcp, hcl]

/-- Witness for C10: a concrete failing-close execution. -/
theorem downloadBin_close_failure_skips_checks_witness :
    downloadBin (fun _ : List Nat => "aa") "bb"
        ⟨some (200, []), true, true, true, false, true⟩
      = ⟨none, false, false⟩ :=
  downloadBin_close_failure_skips_checks (fun _ => "aa") "bb"
    ⟨some (200, []), true, true, true, false, true⟩ [] rfl rfl rfl rfl rfl

/-- Helper: `findRelease` never reaches the out-of-bounds branch when every
line splits on the two-space separator into at least two parts. -/
theorem findRelease_no_panic (key : String) (ls : List String)
    (h : ∀ l ∈ ls, 2 ≤ (goSplit l "  ").length) :
    findRelease key ls ≠ .panicIdx := by
  induction ls with
  | nil => simp [findRelease]
  | cons l ls ih =>
    have hl : 2 ≤ (goSplit l "  ").length := h l (by simp)
    rcases h1 : (goSplit l "  ").get? 1 with _ | f
    · rw [List.get?_eq_none] at h1; omega
    · rcases h0 : (goSplit l "  ").get? 0 with _ | d
      · rw [List.get?_eq_none] at h0; omega
      · unfold findRelease
        rw [h1, h0]
        dsimp only
        split
        · simp
        · exact ih (fun x hx => h x (List.mem_cons_of_mem _ hx))

/-- C9: `getReleaseAndDigest` splits each manifest line on `"  "` and reads
index 1 unconditionally.  On a manifest whose single line `"deadbeef"` has
no two-space separator the out-of-bounds (panic) branch is reached; and for
every manifest in which each line splits into at least two parts, the panic
branch is unreachable. -/
theorem getReleaseAndDigest_index_safety :
    getReleaseAndDigest "1.22.1" "linux" "amd64" "deadbeef" = .panicIdx
    ∧ ∀ version os arch manifest,
        (∀ l ∈ scanLines manifest, 2 ≤ (goSplit l "  ").length) →
        getReleaseAndDigest version os arch manifest ≠ .panicIdx := by
  constructor
  · decide
  · intro version os arch manifest h hcon
    have hnp := findRelease_no_panic
      (runtimeID version ++ "." ++ os ++ "-" ++ arch) (scanLines manifest) h
    unfold getReleaseAndDigest at hcon
    revert hcon
    cases hf : findRelease (runtimeID version ++ "." ++ os ++ "-" ++ arch)
        (scanLines manifest) <;> simp_all

/-- Witness for C9: a well-separated one-line manifest cannot panic. -/
theorem getReleaseAndDigest_index_safety_witness :
    getReleaseAndDigest "1.22.1" "linux" "amd64" "aa  bb" ≠ .panicIdx :=
  getReleaseAndDigest_index_safety.2 "1.22.1" "linux" "amd64" "aa  bb" (by decide)

/-- Helper: the scanner loop of `getChecksum` returns the first field of the
first line with exactly two fields whose second field is `bin`. -/
theorem scanChecksum_eq_find (bin : String) (ls : List String) :
    scanChecksum bin ls =
      match ls.find?
          (fun l => decide ((goFields l).length = 2 ∧ (goFields l).getD 1 "" = bin)) with
      | some l => (goFields l).getD 0 ""
      | none => "" := by
  induction ls with
  | nil => simp [scanChecksum]
  | cons l ls ih =>
    by_cases h : (goFields l).length = 2 ∧ (goFields l).getD 1 "" = bin
    · rw [List.find?_cons_of_pos _ (by simpa using h)]
      rw [scanChecksum,
        if_neg (fun hc => hc.elim (fun ha => ha h.1) (fun hb => hb h.2))]
    · rw [List.find?_cons_of_neg _ (by simpa using h)]
      rw [scanChecksum, if_pos (not_and_or.mp h)]
      exact ih

/-- C6: `getChecksum` returns the first field of the first manifest line
that has exactly two whitespace-separated fields and whose second field
equals the platform-specific source binary name
`<repo>-<OS>-<architecture>[.exe]`; when no line qualifies, or the manifest
fetch failed (transport error or non-success status, `resp = none`), it
returns the empty string. -/
theorem getChecksum_first_matching_line (os arch : String) (rel : Release)
    (resp : Option String) :
    getChecksum os arch rel resp = getChecksumSpec os arch rel resp := by
  cases resp with
  | none => rfl
  | some body =>
    simpa [getChecksum, getChecksumSpec]
      using scanChecksum_eq_find (srcBinName os arch rel) (scanLines body)

/-- C7: for a tool whose repository root does not start with
`https://github.com/`, or whose root (after trimming a `.git` suffix and the
`https://` scheme) does not split on `/` into exactly three segments (host,
account, repository), `getLatestRelease` returns not-resolvable without
requesting either the tag-listing or the latest-release endpoint. -/
theorem getLatestRelease_shape_guard (g : Bool) (rr : RepoRef) (o : NetOracle)
    (h : ¬ goHasPre rr.root "https://github.com/"
      ∨ (goSplit (goTrimPre (goTrimSuf rr.root ".git") "https://") "/").length ≠ 3) :
    getLatestRelease ⟨g, some rr⟩ o = ⟨none, false, false⟩ := by
  rcases h with h | h
  · simp [getLatestRelease, h]
  · by_cases hp : goHasPre rr.root "https://github.com/"
    · simp [getLatestRelease, hp, h]
    · simp [getLatestRelease, hp]

/-- Witness for C7: a non-github root yields not-resolvable, no calls. -/
theorem getLatestRelease_shape_guard_witness :
    getLatestRelease ⟨true, some ⟨"https://gitlab.com/acct/repo", "sha"⟩⟩
        ⟨some [], some ""⟩ = ⟨none, false, false⟩ :=
  getLatestRelease_shape_guard true ⟨"https://gitlab.com/acct/repo", "sha"⟩
    ⟨some [], some ""⟩ (Or.inl (by decide))

/-- C8: when the tag listing succeeds and contains a tag whose commit sha
equals the requested revision, `getLatestRelease` returns the first such
tag's name as the release label and never requests the latest-release
redirect endpoint, whatever that endpoint would answer. -/
theorem getLatestRelease_tag_precedence (g : Bool) (rr : RepoRef)
    (o : NetOracle) (ts : List Tag) (t : Tag) (account repo : String)
    (htags : o.tags = some ts)
    (hfind : ts.find? (fun tg => tg.sha == rr.revision) = some t)
    (hpre : goHasPre rr.root "https://github.com/" = true)
    (hlen : (goSplit (goTrimPre (goTrimSuf rr.root ".git") "https://") "/").length = 3)
    (hacct : (goSplit (goTrimPre (goTrimSuf rr.root ".git") "https://") "/").getD 1 "" = account)
    (hrepo : (goSplit (goTrimPre (goTrimSuf rr.root ".git") "https://") "/").getD 2 "" = repo) :
    getLatestRelease ⟨g, some rr⟩ o = ⟨some ⟨account, repo, t.name⟩, true, false⟩ := by
  unfold getLatestRelease
  dsimp only
  rw [if_neg (by simp [hpre]), if_neg (by simp [hlen]), htags]
  dsimp only
  rw [hfind]
  dsimp only
  rw [hacct, hrepo]

/-- Witness for C8: a matching tag beats a different latest-release
redirect target. -/
theorem getLatestRelease_tag_precedence_witness :
    getLatestRelease ⟨true, some ⟨"https://github.com/acct/repo", "abc"⟩⟩
        ⟨some [⟨"v1.0", "abc"⟩],
          some "https://github.com/acct/repo/releases/tag/v2.0"⟩
      = ⟨some ⟨"acct", "repo", "v1.0"⟩, true, false⟩ :=
  getLatestRelease_tag_precedence true ⟨"https://github.com/acct/repo", "abc"⟩
    ⟨some [⟨"v1.0", "abc"⟩], some "https://github.com/acct/repo/releases/tag/v2.0"⟩
    [⟨"v1.0", "abc"⟩] ⟨"v1.0", "abc"⟩ "acct" "repo"
    rfl (by decide) (by decide) (by decide) (by decide) (by decide)

/-- C5: `Binary` never returns an error: its error component is always
`nil`, and its environment component is returned exactly when it reports
the binary as found (every failure — non-git source, unresolvable release,
empty checksum, or any download error — yields `(false, nil, nil)`). -/
theorem Binary_no_error (tool : ToolSource) (os arch : String) (no : NetOracle)
    (manifest : Option String) (digestHex : List Nat → String) (dlo : DlOracle)
    (env : List String) :
    (Binary tool os arch no manifest digestHex dlo env).err = none
    ∧ (Binary tool os arch no manifest digestHex dlo env).env
      = (if (Binary tool os arch no manifest digestHex dlo env).found
          then some env else none) := by
  unfold Binary
  repeat' split
  all_goals simp_all

/-- C1: starting from a state with neither the final fingerprinted path nor
the staging directory present, a directory exists at the final path after
`getRuntime` exactly when the release resolved and the probe, staging
directory creation, verified download+extraction, and rename all succeeded;
the call succeeds exactly when the final path came to exist (so on any
failure the final path was never created); and the `<fingerprint>.download`
staging directory is removed on every exit path. -/
theorem getRuntime_commit_invariant (hashID : String → String → String)
    (version os arch manifest cwd : String) (o : RunOracle) :
    (getRuntime hashID version os arch manifest cwd o false false).finalExists
      = ((getReleaseAndDigest version os arch manifest).isFound
          && !o.probeErr && o.mkdirOk && o.extractOk && o.renameOk)
    ∧ (getRuntime hashID version os arch manifest cwd o false false).result.isOk
      = (getRuntime hashID version os arch manifest cwd o false false).finalExists
    ∧ (getRuntime hashID version os arch manifest cwd o false false).tmpExists
      = false := by
  rcases o with ⟨pe, mk, ex, rn⟩
  cases hg : getReleaseAndDigest version os arch manifest <;>
    cases pe <;> cases mk <;> cases ex <;> cases rn <;>
      simp [getRuntime, hg, GRDRes.isFound, RunRes.isOk]

/-- C4: once the release is resolved, (a) when a directory already exists
at the fingerprinted final path `getRuntime` returns the cached executable
directory with zero extractions and no state change; (b) when the path does
not exist and the probe fails with an error other than not-exist, that
error is surfaced and nothing is provisioned; (c) after any successful
call, a second call — whatever its oracle — returns the same executable
directory with zero additional extractions. -/
theorem getRuntime_cache_probe (hashID : String → String → String)
    (version os arch manifest cwd url sha target : String)
    (o oProbe oOk o2 : RunOracle) (tmpE : Bool)
    (hrel : getReleaseAndDigest version os arch manifest = .found url sha)
    (htarget : goJoin (goJoin cwd "golang") (hashID url sha) = target)
    (hprobe : oProbe.probeErr = true)
    (hok : (getRuntime hashID version os arch manifest cwd oOk false false).result.isOk
      = true) :
    getRuntime hashID version os arch manifest cwd o true tmpE
      = ⟨.ok (binDir target), true, tmpE, 0⟩
    ∧ getRuntime hashID version os arch manifest cwd oProbe false tmpE
      = ⟨.err "stat error", false, tmpE, 0⟩
    ∧ getRuntime hashID version os arch manifest cwd o2
        (getRuntime hashID version os arch manifest cwd oOk false false).finalExists
        false
      = ⟨.ok (binDir target), true, false, 0⟩ := by
  have h1 : (getRuntime hashID version os arch manifest cwd oOk false false).finalExists
      = true := by
    rcases oOk with ⟨pe, mk, ex, rn⟩
    cases pe <;> cases mk <;> cases ex <;> cases rn <;>
      simp_all [getRuntime, hrel, RunRes.isOk]
  refine ⟨?_, ?_, ?_⟩
  · simp [getRuntime, hrel, htarget]
  · simp [getRuntime, hrel, hprobe]
  · rw [h1]
    simp [getRuntime, hrel, htarget]

/-- Witness for C4: concrete cache-hit, probe-failure, and second-call
executions over a one-line manifest. -/
theorem getRuntime_cache_probe_witness :
    getRuntime (fun _ _ => "fp") "1.22.1" "linux" "amd64"
        "deadbeef  go1.22.1.linux-amd64.tar.gz" "/data"
        ⟨false, true, true, true⟩ true false
      = ⟨.ok (binDir "/data/golang/fp"), true, false, 0⟩
    ∧ getRuntime (fun _ _ => "fp") "1.22.1" "linux" "amd64"
        "deadbeef  go1.22.1.linux-amd64.tar.gz" "/data"
        ⟨true, true, true, true⟩ false false
      = ⟨.err "stat error", false, false, 0⟩
    ∧ getRuntime (fun _ _ => "fp") "1.22.1" "linux" "amd64"
        "deadbeef  go1.22.1.linux-amd64.tar.gz" "/data"
        ⟨true, false, false, false⟩
        (getRuntime (fun _ _ => "fp") "1.22.1" "linux" "amd64"
          "deadbeef  go1.22.1.linux-amd64.tar.gz" "/data"
          ⟨false, true, true, true⟩ false false).finalExists
        false
      = ⟨.ok (binDir "/data/golang/fp"), true, false, 0⟩ :=
  getRuntime_cache_probe (fun _ _ => "fp") "1.22.1" "linux" "amd64"
    "deadbeef  go1.22.1.linux-amd64.tar.gz" "/data"
    "https://go.dev/dl/go1.22.1.linux-amd64.tar.gz" "deadbeef" "/data/golang/fp"
    ⟨false, true, true, true⟩ ⟨true, true, true, true⟩
    ⟨false, true, true, true⟩ ⟨true, false, false, false⟩ false
    (by decide) (by decide) rfl (by decide)

end Golang
